import Mathlib

/-!
Shallow embedding of the attendance-system backend (NestJS + Mongoose).

The embedded code lives in `src/src/attendance/`:
* `schemas/attendance.schema.ts` — the `Attendance` document schema
  (`userId : string`, `checkIn : Date`, `checkOut : Date` defaulting to null).
* `attendance.service.ts` — `AttendanceService` with `getActiveSession`,
  `checkIn`, `checkOut`, `findAll`, all hardcoded to `MOCK_USER_ID`.
* `attendance.controller.ts` — thin HTTP layer (`check-in`, `check-out`,
  `status`, paginated listing).

The Mongo collection is modelled as a `List Attendance` in insertion order
(the store is append-only except for the single in-place `save` performed by
`checkOut`). Timestamps are epoch milliseconds (`Date.getTime`), as `Nat`.
Service methods that can throw return `Except ServiceError`.
-/

namespace AttendanceSystem

/-- One document of the `Attendance` collection
(`src/src/attendance/schemas/attendance.schema.ts`).

`checkOut = none` models the schema default `null`: the session is open.

The schema declares no `duration` prop, and the service never assigns one;
the service's own unit test (`attendance.service.spec.ts`,
`MockAttendanceDoc`) gives documents a `duration` field in seconds and
expects `checkOut` to populate it. We carry it as an `Option Nat`
(absent = `none`) so that the theorems can speak about it. -/
structure Attendance where
  userId : String
  checkIn : Nat
  checkOut : Option Nat
  duration : Option Nat
deriving Repr, DecidableEq

/-- The Mongo collection, in insertion order. -/
abbrev Store := List Attendance

/-- `AttendanceService.MOCK_USER_ID` (attendance.service.ts line 17). -/
def MOCK_USER_ID : String := "user_001"

/-- The query filter `{ userId: MOCK_USER_ID, checkOut: null }` used by
`getActiveSession`. -/
def isOpenSession (r : Attendance) : Bool :=
  r.userId == MOCK_USER_ID && r.checkOut == none

/-- `AttendanceService.getActiveSession`: `findOne` returns the first
document (natural = insertion order) matching the filter, or null. -/
def getActiveSession (st : Store) : Option Attendance :=
  st.find? isOpenSession

/-- The two exceptions the service throws (`ConflictException` maps to
HTTP 409, `BadRequestException` to HTTP 400). -/
inductive ServiceError where
  | conflictException (msg : String)
  | badRequestException (msg : String)
deriving Repr, DecidableEq

/-- `AttendanceService.checkIn`: reject when an active session exists,
otherwise build a new document from `{ userId, checkIn: new Date() }`
(so `checkOut` takes its schema default null and `duration` stays absent)
and `save` it, which appends it to the collection.
Returns the persisted record together with the updated store. -/
def checkIn (now : Nat) (st : Store) : Except ServiceError (Attendance × Store) :=
  match getActiveSession st with
  | some _ =>
      .error (.conflictException "User is already checked in. Please check out first.")
  | none =>
      let newRecord : Attendance :=
        { userId := MOCK_USER_ID, checkIn := now, checkOut := none, duration := none }
      .ok (newRecord, st ++ [newRecord])

/-- `document.save()` on the document that `findOne p` returned: update the
first element of the collection satisfying `p` in place. -/
def saveFirst (p : Attendance → Bool) (f : Attendance → Attendance) :
    Store → Store
  | [] => []
  | r :: rs => if p r then f r :: rs else r :: saveFirst p f rs

/-- `AttendanceService.checkOut`: reject when no active session exists,
otherwise set `checkOut = new Date()` on the found document and `save` it.
Note the source updates only the `checkOut` field — no `duration` is
computed anywhere in the service. -/
def checkOut (now : Nat) (st : Store) : Except ServiceError (Attendance × Store) :=
  match getActiveSession st with
  | none =>
      .error (.badRequestException "No active session found. Please check in first.")
  | some activeSession =>
      let updated : Attendance := { activeSession with checkOut := some now }
      .ok (updated, saveFirst isOpenSession (fun r => { r with checkOut := some now }) st)

/-- Modelled from the spec: `AttendanceController.getStatus` calls
`this.attendanceService.isWorking()`, but no such method appears in
`attendance.service.ts` (the service only has the private
`getActiveSession`). The spec states: "returns boolean: true iff an open
session exists for `userId`. Pure read, no mutation." -/
def isWorking (st : Store) : Bool :=
  (getActiveSession st).isSome

/-- All documents matching `find({ userId: MOCK_USER_ID })`, in insertion
order. -/
def userRecords (st : Store) : List Attendance :=
  st.filter (fun r => r.userId == MOCK_USER_ID)

/-- The comparator realising `.sort({ checkIn: -1 })`: most recent first. -/
def byCheckInDesc (a b : Attendance) : Bool :=
  b.checkIn ≤ a.checkIn

/-- The user's records ordered by `checkIn` descending. `mergeSort` is
stable, supplying the insertion-order secondary key that makes pagination
deterministic in this model. -/
def sortedUserRecords (st : Store) : List Attendance :=
  (userRecords st).mergeSort byCheckInDesc

/-- `const skip = (page - 1) * limit` (attendance.service.ts line 101).
`page` and `limit` arrive from `ParseIntPipe` and may be any integers. -/
def skipOf (page limit : Int) : Int :=
  (page - 1) * limit

/-- `Math.ceil(total / limit)` on JS numbers. For `limit ≠ 0` the result is
the exact rational ceiling; for `limit = 0` the JS value is `Infinity`
(`total > 0`) or `NaN` (`total = 0`), neither an integer, modelled as
`none`. -/
def jsCeilDiv (total : Nat) (limit : Int) : Option Int :=
  if limit = 0 then none else some (Int.ceil ((total : ℚ) / (limit : ℚ)))

/-- The shape of `findAll`'s response
`{ data, total, page, lastPage }`. -/
structure FindAllResult where
  data : List Attendance
  total : Nat
  page : Int
  lastPage : Option Int
deriving Repr, DecidableEq

/-- The cursor pipeline `.skip(skip).limit(limit)` applied to the sorted
records. MongoDB clamps: a `skip` below zero is a store-side error the
service never guards against (modelled via `Int.toNat`, clamping at 0);
`limit(0)` means no limit; a negative limit acts as its absolute value. -/
def windowed (sorted : List Attendance) (skip limit : Int) : List Attendance :=
  let afterSkip := sorted.drop skip.toNat
  if limit = 0 then afterSkip else afterSkip.take limit.natAbs

/-- `AttendanceService.findAll(page, limit)`: compute `skip`, fetch the
user's records sorted by `checkIn` descending windowed by skip/limit, count
all of the user's documents, and return
`{ data, total, page, lastPage: Math.ceil(total / limit) }`.
The source validates neither argument. -/
def findAll (st : Store) (page limit : Int) : FindAllResult :=
  let skip := skipOf page limit
  let data := windowed (sortedUserRecords st) skip limit
  let total := (userRecords st).length
  { data := data, total := total, page := page,
    lastPage := jsCeilDiv total limit }

/-- The service's operations, each stamped with the clock value
(`new Date()`) it observes. -/
inductive Op where
  | checkInOp (now : Nat)
  | checkOutOp (now : Nat)
  | isWorkingOp
  | listHistoryOp (page limit : Int)
deriving Repr, DecidableEq

/-- State transition of one sequentially executed request: a thrown
exception leaves the store untouched, reads never mutate. -/
def applyOp (st : Store) : Op → Store
  | .checkInOp now =>
      match checkIn now st with
      | .ok (_, st') => st'
      | .error _ => st
  | .checkOutOp now =>
      match checkOut now st with
      | .ok (_, st') => st'
      | .error _ => st
  | .isWorkingOp => st
  | .listHistoryOp _ _ => st

/-- Run a request sequence from the empty collection. -/
def run (ops : List Op) : Store :=
  ops.foldl applyOp []

/-- Number of open sessions a user has in the store. -/
def openCount (u : String) (st : Store) : Nat :=
  (st.filter (fun r => r.userId == u && r.checkOut == none)).length

/-! ## Helper lemmas -/

lemma isOpenSession_iff (r : Attendance) :
    isOpenSession r = true ↔ r.userId = MOCK_USER_ID ∧ r.checkOut = none := by
  simp [isOpenSession]

lemma getActiveSession_eq_none_of_not_working {st : Store}
    (h : isWorking st = false) : getActiveSession st = none := by
  cases hgs : getActiveSession st with
  | none => rfl
  | some s => simp [isWorking, hgs] at h

lemma exists_active_of_working {st : Store} (h : isWorking st = true) :
    ∃ s, getActiveSession st = some s := by
  cases hgs : getActiveSession st with
  | none => simp [isWorking, hgs] at h
  | some s => exact ⟨s, rfl⟩

/-! ## C2 -/

/-- C2: `GET /attendance/status` returns `isWorking = true` iff an open
session (a record with `checkOut` unset) exists for the mock user, and the
operation performs no mutation of the store. -/
theorem isWorking_iff_open_session (st : Store) :
    (isWorking st = true ↔ ∃ r ∈ st, r.userId = MOCK_USER_ID ∧ r.checkOut = none) ∧
    applyOp st .isWorkingOp = st := by
  refine ⟨?_, rfl⟩
  simp [isWorking, getActiveSession, List.find?_isSome, isOpenSession]

/-! ## C4 -/

/-- C4: check-in while a session is open fails with `ConflictException`
(HTTP 409) and leaves the store — in particular the user's record count —
unchanged. -/
theorem checkIn_while_working_conflicts (st : Store) (now : Nat)
    (h : isWorking st = true) :
    checkIn now st =
      .error (.conflictException "User is already checked in. Please check out first.") ∧
    applyOp st (.checkInOp now) = st ∧
    openCount MOCK_USER_ID (applyOp st (.checkInOp now)) = openCount MOCK_USER_ID st := by
  obtain ⟨s, hs⟩ := exists_active_of_working h
  refine ⟨?_, ?_, ?_⟩ <;> simp [checkIn, applyOp, hs]

/-! ## C5 -/

/-- C5: check-out with no open session fails with `BadRequestException`
(HTTP 400) and performs no mutation of the store. -/
theorem checkOut_without_session_fails (st : Store) (now : Nat)
    (h : isWorking st = false) :
    checkOut now st =
      .error (.badRequestException "No active session found. Please check in first.") ∧
    applyOp st (.checkOutOp now) = st := by
  have hn := getActiveSession_eq_none_of_not_working h
  exact ⟨by simp [checkOut, hn], by simp [applyOp, checkOut, hn]⟩

/-! ## C6 -/

/-- C6: with no open session, check-in appends exactly one new record with
`checkIn = now` and `checkOut` unset, returns that record, and afterwards
`isWorking` is true. -/
theorem checkIn_success_creates (st : Store) (now : Nat)
    (h : isWorking st = false) :
    ∃ r st', checkIn now st = .ok (r, st') ∧
      r.userId = MOCK_USER_ID ∧ r.checkIn = now ∧ r.checkOut = none ∧
      st' = st ++ [r] ∧ isWorking st' = true ∧
      applyOp st (.checkInOp now) = st' := by
  have hn := getActiveSession_eq_none_of_not_working h
  have hfind : st.find? isOpenSession = none := hn
  refine ⟨{ userId := MOCK_USER_ID, checkIn := now, checkOut := none, duration := none },
    st ++ [{ userId := MOCK_USER_ID, checkIn := now, checkOut := none, duration := none }],
    by simp [checkIn, hn], rfl, rfl, rfl, rfl, ?_, by simp [applyOp, checkIn, hn]⟩
  simp [isWorking, getActiveSession, List.find?_append, hfind, isOpenSession, MOCK_USER_ID]

/-! ## C1 -/

/-- A store holding one open session for the mock user, opened at time 0. -/
def c1State : Store :=
  [{ userId := "user_001", checkIn := 0, checkOut := none, duration := none }]

/-- C1: a successful check-out 10 000 ms after check-in sets
`checkOut = now` but returns and persists a record whose `duration` is
absent (`none`): the service only assigns `checkOut` and the schema has no
`duration` prop, so `duration == floor(checkOut - checkIn)` — which would
be `10` seconds here, as the service's own unit test expects — fails. -/
theorem checkOut_sets_no_duration :
    checkOut 10000 c1State =
      .ok ({ userId := "user_001", checkIn := 0, checkOut := some 10000, duration := none },
           [{ userId := "user_001", checkIn := 0, checkOut := some 10000, duration := none }]) ∧
    ({ userId := "user_001", checkIn := 0, checkOut := some 10000, duration := none } :
      Attendance).duration ≠ some ((10000 - 0) / 1000) :=
  ⟨rfl, by decide⟩

/-! ## C10 -/

/-- C10: `findAll` validates neither argument: it computes a response for
every integer `page` and `limit`; at `limit = 0` the JS expression
`Math.ceil(total / 0)` is not an integer (modelled `none`), and for
`page < 1` (with positive `limit`) the computed `skip` is negative. -/
theorem findAll_no_validation (st : Store) (page limit : Int) :
    (findAll st page limit).total = (userRecords st).length ∧
    (findAll st page limit).page = page ∧
    (limit = 0 → (findAll st page limit).lastPage = none) ∧
    (page < 1 → 1 ≤ limit → skipOf page limit < 0) := by
  refine ⟨rfl, rfl, fun h => by simp [findAll, jsCeilDiv, h], fun hp hl => ?_⟩
  exact mul_neg_of_neg_of_pos (by omega) (by omega)

/-- Concrete instance of `findAll_no_validation`. -/
theorem findAll_no_validation_witness :
    (findAll [] 0 0).lastPage = none ∧ skipOf 0 1 < 0 :=
  ⟨(findAll_no_validation [] 0 0).2.2.1 rfl,
   (findAll_no_validation [] 0 1).2.2.2 (by decide) (by decide)⟩

/-! ## Witnesses for the error-handling and check-in claims -/

/-- Concrete instance of `checkIn_while_working_conflicts`: one open
session in the store. -/
theorem checkIn_while_working_conflicts_witness :
    isWorking [{ userId := "user_001", checkIn := 0, checkOut := none, duration := none }] = true ∧
    checkIn 3 [{ userId := "user_001", checkIn := 0, checkOut := none, duration := none }] =
      .error (.conflictException "User is already checked in. Please check out first.") :=
  ⟨by decide,
   (checkIn_while_working_conflicts
      [{ userId := "user_001", checkIn := 0, checkOut := none, duration := none }] 3
      (by decide)).1⟩

/-- Concrete instance of `checkOut_without_session_fails`: one closed
session in the store. -/
theorem checkOut_without_session_fails_witness :
    isWorking [{ userId := "user_001", checkIn := 0, checkOut := some 5, duration := none }] = false ∧
    checkOut 9 [{ userId := "user_001", checkIn := 0, checkOut := some 5, duration := none }] =
      .error (.badRequestException "No active session found. Please check in first.") :=
  ⟨by decide,
   (checkOut_without_session_fails
      [{ userId := "user_001", checkIn := 0, checkOut := some 5, duration := none }] 9
      (by decide)).1⟩

/-- Concrete instance of `checkIn_success_creates`: empty store. -/
theorem checkIn_success_creates_witness :
    isWorking ([] : Store) = false ∧
    ∃ r st', checkIn 5 ([] : Store) = .ok (r, st') ∧
      r.userId = MOCK_USER_ID ∧ r.checkIn = 5 ∧ r.checkOut = none ∧
      st' = [] ++ [r] ∧ isWorking st' = true ∧
      applyOp ([] : Store) (.checkInOp 5) = st' :=
  ⟨by decide, checkIn_success_creates ([] : Store) 5 (by decide)⟩

/-! ## C3 -/

lemma openCount_cons (u : String) (r : Attendance) (rs : Store) :
    openCount u (r :: rs) =
      (if r.userId == u && r.checkOut == none then 1 else 0) + openCount u rs := by
  by_cases h : (r.userId == u && r.checkOut == none) = true <;>
    simp [openCount, List.filter_cons, h] <;> omega

lemma openCount_append_single (u : String) (st : Store) (r : Attendance) :
    openCount u (st ++ [r]) =
      openCount u st + (if r.userId == u && r.checkOut == none then 1 else 0) := by
  by_cases h : (r.userId == u && r.checkOut == none) = true <;>
    simp [openCount, List.filter_append, List.filter_cons, h]

lemma openCount_eq_zero_of_no_active {st : Store}
    (h : getActiveSession st = none) : openCount MOCK_USER_ID st = 0 := by
  have hall := List.find?_eq_none.mp h
  simp only [openCount, List.length_eq_zero, List.filter_eq_nil_iff]
  intro a ha
  exact hall a ha

lemma openCount_saveFirst_le (u : String) (now : Nat) :
    ∀ st : Store,
      openCount u (saveFirst isOpenSession (fun r => { r with checkOut := some now }) st) ≤
        openCount u st := by
  intro st
  induction st with
  | nil => simp [saveFirst]
  | cons r rs ih =>
      by_cases hp : isOpenSession r = true
      · have hstep :
            saveFirst isOpenSession (fun r => { r with checkOut := some now }) (r :: rs) =
              { r with checkOut := some now } :: rs := by
          simp [saveFirst, hp]
        rw [hstep, openCount_cons, openCount_cons]
        have hclosed :
            openCount u rs + 0 ≤ (if r.userId == u && r.checkOut == none then 1 else 0) +
              openCount u rs := by omega
        have hne : ((some now : Option Nat) == none) = false := rfl
        simpa [hne] using hclosed
      · have hstep :
            saveFirst isOpenSession (fun r => { r with checkOut := some now }) (r :: rs) =
              r :: saveFirst isOpenSession (fun r => { r with checkOut := some now }) rs := by
          simp [saveFirst, hp]
        rw [hstep, openCount_cons, openCount_cons]
        omega

lemma applyOp_preserves_atMostOne (st : Store) (op : Op)
    (h : ∀ u, openCount u st ≤ 1) : ∀ u, openCount u (applyOp st op) ≤ 1 := by
  intro u
  cases op with
  | isWorkingOp => exact h u
  | listHistoryOp page limit => exact h u
  | checkInOp now =>
      cases hgs : getActiveSession st with
      | some s => simpa [applyOp, checkIn, hgs] using h u
      | none =>
          have hzero := openCount_eq_zero_of_no_active hgs
          have hred : applyOp st (Op.checkInOp now) =
              st ++ [{ userId := MOCK_USER_ID, checkIn := now, checkOut := none,
                       duration := none }] := by
            simp [applyOp, checkIn, hgs]
          rw [hred, openCount_append_single]
          by_cases hu : MOCK_USER_ID = u
          · subst hu
            rw [hzero]
            split <;> omega
          · have hne :
                (({ userId := MOCK_USER_ID, checkIn := now, checkOut := none,
                    duration := none } : Attendance).userId == u) = false := by
              simp [hu]
            simp only [hne, Bool.false_and]
            simpa using h u
  | checkOutOp now =>
      cases hgs : getActiveSession st with
      | none => simpa [applyOp, checkOut, hgs] using h u
      | some s =>
          simp only [applyOp, checkOut, hgs]
          exact le_trans (openCount_saveFirst_le u now st) (h u)

lemma foldl_preserves_atMostOne :
    ∀ (ops : List Op) (st : Store), (∀ u, openCount u st ≤ 1) →
      ∀ u, openCount u (ops.foldl applyOp st) ≤ 1 := by
  intro ops
  induction ops with
  | nil => exact fun st h => h
  | cons op rest ih =>
      intro st h
      exact ih (applyOp st op) (applyOp_preserves_atMostOne st op h)

/-- C3: in every state reachable from the empty store by a sequence of
check-in / check-out / status / history requests, every user has at most
one open session. -/
theorem run_atMostOne_open (ops : List Op) (u : String) :
    openCount u (run ops) ≤ 1 := by
  exact foldl_preserves_atMostOne ops [] (fun v => by simp [openCount]) u

/-! ## C9 -/

lemma saveFirst_length (p : Attendance → Bool) (f : Attendance → Attendance) :
    ∀ st : Store, (saveFirst p f st).length = st.length := by
  intro st
  induction st with
  | nil => rfl
  | cons r rs ih =>
      by_cases hp : p r = true <;> simp [saveFirst, hp, ih]

lemma saveFirst_append_of_none (p : Attendance → Bool) (f : Attendance → Attendance) :
    ∀ (l1 : Store), (∀ a ∈ l1, ¬ p a = true) → ∀ (s : Attendance) (l2 : Store),
      p s = true → saveFirst p f (l1 ++ s :: l2) = l1 ++ f s :: l2 := by
  intro l1
  induction l1 with
  | nil => intro _ s l2 hs; simp [saveFirst, hs]
  | cons a as ih =>
      intro hall s l2 hs
      have ha : ¬ p a = true := hall a (by simp)
      have has : ∀ x ∈ as, ¬ p x = true := fun x hx => hall x (by simp [hx])
      simp [saveFirst, ha, ih has s l2 hs]

lemma getElem?_saveFirst_of_closed (p : Attendance → Bool) (f : Attendance → Attendance) :
    ∀ (st : Store) (i : Nat) (hi : i < st.length), p (st.get ⟨i, hi⟩) = false →
      (saveFirst p f st)[i]? = some (st.get ⟨i, hi⟩) := by
  intro st
  induction st with
  | nil => intro i hi; simp at hi
  | cons r rs ih =>
      intro i hi hcl
      cases i with
      | zero =>
          have hr : p r = false := hcl
          simp [saveFirst, hr]
      | succ j =>
          have hj : j < rs.length := by simpa using hi
          by_cases hp : p r = true
          · simp only [saveFirst, hp, if_pos]
            simpa using List.getElem?_eq_getElem hj
          · have hp' : p r = false := by simpa using hp
            simp only [saveFirst, hp', Bool.false_eq_true, if_false]
            simpa using ih j hj (by simpa using hcl)

/-- C9: a successful check-in only appends one record; a successful
check-out rewrites exactly the first open record, changing only its
`checkOut` field; and no operation ever changes a record whose `checkOut`
is already set (closed records stay, at their position, forever). -/
theorem frame_conditions (st : Store) (now : Nat) :
    (∀ r st', checkIn now st = .ok (r, st') → st' = st ++ [r]) ∧
    (∀ r st', checkOut now st = .ok (r, st') →
      ∃ l1 s l2, st = l1 ++ s :: l2 ∧
        s.userId = MOCK_USER_ID ∧ s.checkOut = none ∧
        (∀ x ∈ l1, isOpenSession x = false) ∧
        r = { s with checkOut := some now } ∧
        r.userId = s.userId ∧ r.checkIn = s.checkIn ∧ r.duration = s.duration ∧
        st' = l1 ++ r :: l2) ∧
    (∀ op : Op, st.length ≤ (applyOp st op).length ∧
      ∀ i (hi : i < st.length), (st.get ⟨i, hi⟩).checkOut ≠ none →
        (applyOp st op)[i]? = some (st.get ⟨i, hi⟩)) := by
  refine ⟨?_, ?_, ?_⟩
  · intro r st' hok
    cases hgs : getActiveSession st with
    | some s => simp [checkIn, hgs] at hok
    | none =>
        simp only [checkIn, hgs, Except.ok.injEq, Prod.mk.injEq] at hok
        rw [← hok.2, ← hok.1]
  · intro r st' hok
    cases hgs : getActiveSession st with
    | none => simp [checkOut, hgs] at hok
    | some s =>
        obtain ⟨hps, l1, l2, hsplit, hl1⟩ := List.find?_eq_some.mp hgs
        obtain ⟨hsu, hsc⟩ := (isOpenSession_iff s).mp hps
        simp only [checkOut, hgs, Except.ok.injEq, Prod.mk.injEq] at hok
        refine ⟨l1, s, l2, hsplit, hsu, hsc, ?_, hok.1.symm, ?_, ?_, ?_, ?_⟩
        · intro x hx
          simpa using hl1 x hx
        · rw [← hok.1]
        · rw [← hok.1]
        · rw [← hok.1]
        · rw [← hok.2, hsplit, ← hok.1]
          exact saveFirst_append_of_none isOpenSession
            (fun r => { r with checkOut := some now }) l1
            (fun a ha => by simpa using hl1 a ha) s l2 hps
  · intro op
    cases op with
    | isWorkingOp =>
        exact ⟨le_refl _, fun i hi _ => (List.getElem?_eq_getElem hi).symm ▸
          (List.getElem?_eq_getElem hi)⟩
    | listHistoryOp page limit =>
        exact ⟨le_refl _, fun i hi _ => List.getElem?_eq_getElem hi⟩
    | checkInOp now' =>
        cases hgs : getActiveSession st with
        | some s =>
            refine ⟨?_, ?_⟩ <;> simp only [applyOp, checkIn, hgs]
            · exact le_refl _
            · exact fun i hi _ => List.getElem?_eq_getElem hi
        | none =>
            refine ⟨?_, ?_⟩ <;> simp only [applyOp, checkIn, hgs]
            · simp
            · intro i hi _
              rw [List.getElem?_append_left hi]
              exact List.getElem?_eq_getElem hi
    | checkOutOp now' =>
        cases hgs : getActiveSession st with
        | none =>
            refine ⟨?_, ?_⟩ <;> simp only [applyOp, checkOut, hgs]
            · exact le_refl _
            · exact fun i hi _ => List.getElem?_eq_getElem hi
        | some s =>
            refine ⟨?_, ?_⟩ <;> simp only [applyOp, checkOut, hgs]
            · rw [saveFirst_length]
            · intro i hi hcl
              refine getElem?_saveFirst_of_closed _ _ st i hi ?_
              simp [isOpenSession]
              intro _
              simpa using hcl

/-- Concrete instances of `frame_conditions`: check-in on the empty store
appends the new record; check-out on a one-open-record store rewrites that
record in place; a closed record survives a later check-in untouched. -/
theorem frame_conditions_witness :
    (([{ userId := "user_001", checkIn := 5, checkOut := none, duration := none }] : Store) =
      [] ++ [{ userId := "user_001", checkIn := 5, checkOut := none, duration := none }]) ∧
    (∃ l1 s l2,
      ([{ userId := "user_001", checkIn := 0, checkOut := none, duration := none }] : Store) =
        l1 ++ s :: l2 ∧
      s.userId = MOCK_USER_ID ∧ s.checkOut = none ∧
      (∀ x ∈ l1, isOpenSession x = false) ∧
      ({ userId := "user_001", checkIn := 0, checkOut := some 7, duration := none } :
        Attendance) = { s with checkOut := some 7 } ∧
      ({ userId := "user_001", checkIn := 0, checkOut := some 7, duration := none } :
        Attendance).userId = s.userId ∧
      ({ userId := "user_001", checkIn := 0, checkOut := some 7, duration := none } :
        Attendance).checkIn = s.checkIn ∧
      ({ userId := "user_001", checkIn := 0, checkOut := some 7, duration := none } :
        Attendance).duration = s.duration ∧
      ([{ userId := "user_001", checkIn := 0, checkOut := some 7, duration := none }] : Store) =
        l1 ++ { userId := "user_001", checkIn := 0, checkOut := some 7, duration := none } :: l2) ∧
    ((applyOp [{ userId := "user_001", checkIn := 0, checkOut := some 5, duration := none }]
        (.checkInOp 9))[0]? =
      some (([{ userId := "user_001", checkIn := 0, checkOut := some 5, duration := none }] :
        Store).get ⟨0, by decide⟩)) :=
  ⟨(frame_conditions ([] : Store) 5).1
      { userId := "user_001", checkIn := 5, checkOut := none, duration := none }
      [{ userId := "user_001", checkIn := 5, checkOut := none, duration := none }] rfl,
   (frame_conditions
      [{ userId := "user_001", checkIn := 0, checkOut := none, duration := none }] 7).2.1
      { userId := "user_001", checkIn := 0, checkOut := some 7, duration := none }
      [{ userId := "user_001", checkIn := 0, checkOut := some 7, duration := none }] rfl,
   ((frame_conditions
      [{ userId := "user_001", checkIn := 0, checkOut := some 5, duration := none }] 9).2.2
      (.checkInOp 9)).2 0 (by decide) (by decide)⟩

/-! ## C7 -/

lemma ceil_natCast_div (t n : Nat) (hn : 0 < n) :
    Int.ceil ((t : ℚ) / (n : ℚ)) = (((t + n - 1) / n : ℕ) : ℤ) := by
  have hn' : (0 : ℚ) < (n : ℚ) := by exact_mod_cast hn
  set q := (t + n - 1) / n with hq
  have h1 : q * n ≤ t + n - 1 := Nat.div_mul_le_self _ _
  have h2 : t + n - 1 < (q + 1) * n := by
    rw [hq]
    exact (Nat.div_lt_iff_lt_mul hn).mp (Nat.lt_succ_self _)
  rw [add_mul, one_mul] at h2
  have h3 : t ≤ q * n := by
    set m := q * n
    omega
  have h4 : q * n + 1 ≤ t + n := by
    set m := q * n
    omega
  rw [Int.ceil_eq_iff]
  constructor
  · push_cast
    rw [lt_div_iff₀ hn']
    have hc : ((q * n : ℕ) : ℚ) + 1 ≤ ((t + n : ℕ) : ℚ) := by exact_mod_cast h4
    push_cast at hc
    nlinarith [hc]
  · push_cast
    rw [div_le_iff₀ hn']
    exact_mod_cast h3

lemma jsCeilDiv_of_pos (t : Nat) (L : Int) (hL : 1 ≤ L) :
    jsCeilDiv t L = some (((t + L.toNat - 1) / L.toNat : ℕ) : ℤ) := by
  have hL0 : L ≠ 0 := by omega
  have h1 : ((L.toNat : ℕ) : ℤ) = L := Int.toNat_of_nonneg (by omega)
  have h2 : ((L.toNat : ℕ) : ℚ) = (L : ℚ) := by exact_mod_cast congrArg (fun z : ℤ => (z : ℚ)) h1
  simp only [jsCeilDiv, hL0, if_false, reduceCtorEq]
  rw [← h2, ceil_natCast_div t L.toNat (by omega)]

lemma sortedUserRecords_perm (st : Store) :
    (sortedUserRecords st).Perm (userRecords st) :=
  List.mergeSort_perm _ _

lemma sortedUserRecords_pairwise (st : Store) :
    (sortedUserRecords st).Pairwise (fun a b => b.checkIn ≤ a.checkIn) := by
  have h : (List.mergeSort (userRecords st) byCheckInDesc).Pairwise
      (fun a b => byCheckInDesc a b = true) :=
    List.sorted_mergeSort
      (fun a b c hab hbc => by
        simp only [byCheckInDesc, decide_eq_true_eq] at *
        omega)
      (fun a b => by
        simp only [byCheckInDesc, Bool.or_eq_true, decide_eq_true_eq]
        omega)
      (userRecords st)
  exact h.imp (fun hab => by simpa [byCheckInDesc] using hab)

/-- C7: for `page ≥ 1` and `limit ≥ 1`, `findAll` returns `total` equal to
the user's record count, `lastPage = ceil(total / limit)`, and `data` equal
to the `skip = (page-1)*limit`, `take = limit` window of the user's records
in descending `checkIn` order. -/
theorem findAll_paginates (st : Store) (page limit : Int)
    (hp : 1 ≤ page) (hl : 1 ≤ limit) :
    (findAll st page limit).total = (userRecords st).length ∧
    (findAll st page limit).page = page ∧
    (findAll st page limit).lastPage =
      some ((((userRecords st).length + limit.toNat - 1) / limit.toNat : ℕ) : ℤ) ∧
    ∃ full : List Attendance,
      full.Perm (userRecords st) ∧
      full.Pairwise (fun a b => b.checkIn ≤ a.checkIn) ∧
      (findAll st page limit).data =
        (full.drop ((page - 1) * limit).toNat).take limit.toNat := by
  refine ⟨rfl, rfl, ?_, sortedUserRecords st, sortedUserRecords_perm st,
    sortedUserRecords_pairwise st, ?_⟩
  · simpa [findAll] using jsCeilDiv_of_pos (userRecords st).length limit hl
  · have hl0 : limit ≠ 0 := by omega
    have habs : limit.natAbs = limit.toNat := by omega
    simp [findAll, windowed, skipOf, hl0, habs]

/-- The store used in the `findAll_paginates` witness: two closed records. -/
def pagedStore7 : Store :=
  [{ userId := "user_001", checkIn := 1, checkOut := some 2, duration := none },
   { userId := "user_001", checkIn := 3, checkOut := some 4, duration := none }]

/-- Concrete instance of `findAll_paginates` at page 2, limit 1. -/
theorem findAll_paginates_witness :
    (1 : ℤ) ≤ 2 ∧ (1 : ℤ) ≤ 1 ∧
    ((findAll pagedStore7 2 1).total = (userRecords pagedStore7).length ∧
     (findAll pagedStore7 2 1).page = 2 ∧
     (findAll pagedStore7 2 1).lastPage =
       some ((((userRecords pagedStore7).length + (1 : ℤ).toNat - 1) / (1 : ℤ).toNat : ℕ) : ℤ) ∧
     ∃ full : List Attendance,
       full.Perm (userRecords pagedStore7) ∧
       full.Pairwise (fun a b => b.checkIn ≤ a.checkIn) ∧
       (findAll pagedStore7 2 1).data =
         (full.drop (((2 : ℤ) - 1) * 1).toNat).take (1 : ℤ).toNat) :=
  ⟨by decide, by decide, findAll_paginates pagedStore7 2 1 (by decide) (by decide)⟩

/-! ## C8 -/

lemma join_pages_aux (L : Nat) (hL : 0 < L) :
    ∀ (n : Nat) (l : List Attendance), l.length ≤ n →
      ((List.range ((l.length + L - 1) / L)).map
        (fun i => (l.drop (i * L)).take L)).flatten = l := by
  intro n
  induction n with
  | zero =>
      intro l hl
      have hnil : l = [] := List.length_eq_zero.mp (Nat.le_zero.mp hl)
      subst hnil
      simp [Nat.div_eq_of_lt (show L - 1 < L by omega)]
  | succ m ih =>
      intro l hl
      by_cases hnil : l.length = 0
      · have : l = [] := List.length_eq_zero.mp hnil
        subst this
        simp [Nat.div_eq_of_lt (show L - 1 < L by omega)]
      · have hpos : 0 < l.length := by omega
        have hcount : (l.length + L - 1) / L = (l.length - L + L - 1) / L + 1 := by
          by_cases hcase : l.length ≤ L
          · have hinner : (l.length - L + L - 1) / L = 0 :=
              Nat.div_eq_of_lt (by omega)
            have houter : (l.length + L - 1) / L = 1 :=
              Nat.div_eq_of_lt_le (by omega) (by rw [add_mul, one_mul]; omega)
            omega
          · have harith : l.length + L - 1 = (l.length - L + L - 1) + L := by omega
            rw [harith, Nat.add_div_right _ hL]
        rw [hcount, List.range_succ_eq_map, List.map_cons, List.flatten_cons,
          Nat.zero_mul, List.drop_zero, List.map_map]
        have heq : ((fun i => (l.drop (i * L)).take L) ∘ Nat.succ) =
            (fun i => ((l.drop L).drop (i * L)).take L) := by
          funext i
          show (l.drop (Nat.succ i * L)).take L = ((l.drop L).drop (i * L)).take L
          rw [List.drop_drop, Nat.succ_mul, Nat.add_comm]
        have hih := ih (l.drop L) (by rw [List.length_drop]; omega)
        rw [List.length_drop] at hih
        rw [heq, hih]
        exact List.take_append_drop L l

/-- C8: for `limit = L ≥ 1`, every page reports
`lastPage = ceil(N / L)` (`N` the user's record count), and concatenating
the `data` of pages `1 .. lastPage` reproduces the user's records in
descending-`checkIn` order exactly — a permutation of the user's records,
so no duplicates and no omissions. -/
theorem findAll_pages_cover (st : Store) (L : Int) (hL : 1 ≤ L) :
    ∃ full : List Attendance,
      full.Perm (userRecords st) ∧
      full.Pairwise (fun a b => b.checkIn ≤ a.checkIn) ∧
      (∀ page : Int, (findAll st page L).lastPage =
        some ((((userRecords st).length + L.toNat - 1) / L.toNat : ℕ) : ℤ)) ∧
      ((List.range (((userRecords st).length + L.toNat - 1) / L.toNat)).map
        (fun i : Nat => (findAll st ((i : ℤ) + 1) L).data)).flatten = full := by
  refine ⟨sortedUserRecords st, sortedUserRecords_perm st,
    sortedUserRecords_pairwise st, ?_, ?_⟩
  · intro page
    simpa [findAll] using jsCeilDiv_of_pos (userRecords st).length L hL
  · have hL0 : L ≠ 0 := by omega
    have habs : L.natAbs = L.toNat := by omega
    have hlen : (sortedUserRecords st).length = (userRecords st).length :=
      (sortedUserRecords_perm st).length_eq
    have hdata : (fun i : Nat => (findAll st ((i : ℤ) + 1) L).data) =
        (fun i : Nat => ((sortedUserRecords st).drop (i * L.toNat)).take L.toNat) := by
      funext i
      have hskip : skipOf ((i : ℤ) + 1) L = (i : ℤ) * L := by
        unfold skipOf; ring
      have htoNat : ((i : ℤ) * L).toNat = i * L.toNat := by
        have hcast : ((i : ℤ) * L) = ((i * L.toNat : ℕ) : ℤ) := by
          rw [Nat.cast_mul, Int.toNat_of_nonneg (show (0 : ℤ) ≤ L by omega)]
        rw [hcast, Int.toNat_ofNat]
      simp [findAll, windowed, hskip, htoNat, hL0, habs]
    rw [hdata, ← hlen]
    exact join_pages_aux L.toNat (by omega) (sortedUserRecords st).length
      (sortedUserRecords st) (le_refl _)

/-- The store used in the `findAll_pages_cover` witness: three closed
records. -/
def pagedStore8 : Store :=
  [{ userId := "user_001", checkIn := 1, checkOut := some 2, duration := none },
   { userId := "user_001", checkIn := 3, checkOut := some 4, duration := none },
   { userId := "user_001", checkIn := 5, checkOut := some 6, duration := none }]

/-- Concrete instance of `findAll_pages_cover` at limit 2. -/
theorem findAll_pages_cover_witness :
    (1 : ℤ) ≤ 2 ∧
    ∃ full : List Attendance,
      full.Perm (userRecords pagedStore8) ∧
      full.Pairwise (fun a b => b.checkIn ≤ a.checkIn) ∧
      (∀ page : Int, (findAll pagedStore8 page 2).lastPage =
        some ((((userRecords pagedStore8).length + (2 : ℤ).toNat - 1) / (2 : ℤ).toNat : ℕ) : ℤ)) ∧
      ((List.range (((userRecords pagedStore8).length + (2 : ℤ).toNat - 1) / (2 : ℤ).toNat)).map
        (fun i : Nat => (findAll pagedStore8 ((i : ℤ) + 1) 2).data)).flatten = full :=
  ⟨by decide, findAll_pages_cover pagedStore8 2 (by decide)⟩

end AttendanceSystem
